import Mathlib

/-!
Verification development for the prANA price bot (`src/main.py`).

The bot periodically scrapes a numeric price from a web page with Selenium,
normalizes the text, and republishes it through Discord presence and a
voice-channel rename.  The Python code is shallowly embedded below:

* Python strings are `List Char` (`Str`); `str.replace`, `str.strip` and
  `float()` are modelled by `pyReplace`, `pyStrip` and `pyFloat?`.
  `float()` is modelled with exact decimal semantics (a mantissa/exponent
  pair) on ASCII input; IEEE rounding and overflow are not modelled.
* The per-attempt scraping pipeline `fetch_price_attempt` (main.py 448-614)
  is a function of the inputs the environment supplies to one attempt:
  whether driver setup succeeded, which exceptions the WebDriver raises,
  and the raw text each locator strategy yields.
* The retry loop `fetch_price` (main.py 616-675), the statistics dictionary,
  the scheduler cycle `update_bot_status` (main.py 677-739), the reconnect
  handler `on_resumed` (772-776) and the ChromeDriver version resolution
  (193-256) are embedded as explicit state-passing functions.
-/

abbrev Str := List Char

/-- Models the character class stripped by Python `str.strip()`
(whitespace, ASCII-faithful via `Char.isWhitespace`). -/
def isPySpace (c : Char) : Bool := c.isWhitespace

/-- Python `str.strip()`: remove leading and trailing whitespace. -/
def pyStrip (s : Str) : Str :=
  ((s.dropWhile isPySpace).reverse.dropWhile isPySpace).reverse

/-- Fuel-indexed core of Python `str.replace(pat, rep)`: replace all
non-overlapping occurrences, scanning left to right.  Fuel of at least the
subject length is enough, since every step consumes at least one character
when `pat` is nonempty (the bot only replaces the nonempty tokens
`"USDC"`, `"$"`, `","`). -/
def pyReplaceGo (pat rep : Str) : ℕ → Str → Str
  | 0, s => s
  | _ + 1, [] => []
  | fuel + 1, c :: cs =>
    if pat.isPrefixOf (c :: cs) = true ∧ pat ≠ [] then
      rep ++ pyReplaceGo pat rep fuel ((c :: cs).drop pat.length)
    else
      c :: pyReplaceGo pat rep fuel cs

/-- Python `s.replace(pat, rep)` for nonempty `pat`. -/
def pyReplace (pat rep s : Str) : Str := pyReplaceGo pat rep s.length s

/-- Fuel-indexed core of `digRun`; every step consumes at least one
character, so fuel of at least the subject length is enough. -/
def digRunGo : ℕ → Str → Str × Str
  | 0, s => ([], s)
  | _ + 1, [] => ([], [])
  | fuel + 1, c :: cs =>
    if c.isDigit = true then
      match cs with
      | '_' :: d :: cs3 =>
        if d.isDigit = true then
          let p := digRunGo fuel (d :: cs3)
          (c :: p.1, p.2)
        else ([c], cs)
      | _ =>
        let p := digRunGo fuel cs
        (c :: p.1, p.2)
    else ([], c :: cs)

/-- A run of decimal digits with Python's underscore grouping
(`1_000`): an underscore is consumed only between two digits.  Returns the
digits (underscores dropped) and the unconsumed rest. -/
def digRun (s : Str) : Str × Str := digRunGo s.length s

/-- Numeric value of a digit run. -/
def digitsToNat (ds : Str) : ℕ :=
  ds.foldl (fun n c => 10 * n + (c.toNat - ('0').toNat)) 0

/-- Mantissa of a Python float literal: `digits[.digits]` or `.digits`,
at least one digit overall.  Returns the mantissa read as an integer, the
number of fractional digits, and the unconsumed rest. -/
def parseMantissa (s : Str) : Option (ℕ × ℕ × Str) :=
  let p := digRun s
  match p.2 with
  | '.' :: r2 =>
    let q := digRun r2
    if p.1 = [] ∧ q.1 = [] then none
    else some (digitsToNat (p.1 ++ q.1), q.1.length, q.2)
  | _ => if p.1 = [] then none else some (digitsToNat p.1, 0, p.2)

/-- Exponent part after the `e`/`E` marker: optional sign then digits. -/
def parseExpTail (r1 : Str) : Option (ℤ × Str) :=
  let sgn : Bool × Str :=
    match r1 with
    | '+' :: r => (false, r)
    | '-' :: r => (true, r)
    | _ => (false, r1)
  let q := digRun sgn.2
  if q.1 = [] then none
  else some ((if sgn.1 then -(digitsToNat q.1 : ℤ) else (digitsToNat q.1 : ℤ)), q.2)

/-- Optional exponent of a Python float literal. -/
def parseExp (s : Str) : Option (ℤ × Str) :=
  match s with
  | 'e' :: r1 => parseExpTail r1
  | 'E' :: r1 => parseExpTail r1
  | _ => some (0, s)

/-- Result of a successful Python `float()` call, with finite values kept
as exact decimals `mant * 10 ^ exp10`. -/
inductive PyFloat
  | finite (mant : ℤ) (exp10 : ℤ)
  | infinite (neg : Bool)
  | nan
deriving DecidableEq

/-- Python `float(s)`: `some` exactly when the call succeeds.  Surrounding
whitespace is ignored, then an optional sign, then `inf`/`infinity`/`nan`
(case-insensitive) or a decimal literal with optional exponent. -/
def pyFloat? (s : Str) : Option PyFloat :=
  let t := pyStrip s
  let sgn : Bool × Str :=
    match t with
    | '+' :: r => (false, r)
    | '-' :: r => (true, r)
    | _ => (false, t)
  let low := sgn.2.map Char.toLower
  if low = [ 'i', 'n', 'f' ] ∨ low = [ 'i', 'n', 'f', 'i', 'n', 'i', 't', 'y' ] then
    some (PyFloat.infinite sgn.1)
  else if low = [ 'n', 'a', 'n' ] then some PyFloat.nan
  else
    match parseMantissa sgn.2 with
    | none => none
    | some (m, fracLen, r1) =>
      match parseExp r1 with
      | none => none
      | some (e, r2) =>
        if r2 = [] then
          some (PyFloat.finite (if sgn.1 then -(m : ℤ) else (m : ℤ)) (e - (fracLen : ℤ)))
        else none

/-- The currency token stripped first by main.py line 546. -/
def usdcTok : Str := [ 'U', 'S', 'D', 'C' ]

/-- main.py line 546 before the final strip:
`price_text.replace("USDC", "").replace("$", "").replace(",", "")`. -/
def removeTokens (s : Str) : Str :=
  pyReplace [ ',' ] [] (pyReplace [ '$' ] [] (pyReplace usdcTok [] s))

/-- main.py line 546, the whole normalization step:
`price_text.replace("USDC", "").replace("$", "").replace(",", "").strip()`. -/
def cleanText (s : Str) : Str := pyStrip (removeTokens s)

/-- The ordered locator-strategy list of main.py lines 488-499
(mechanism, selector pattern); static configuration, order is precedence. -/
def selectors_to_try : List (String × String) :=
  [ ("CLASS_NAME", "DataPoint_dataPointValue__Bzf_E"),
    ("CSS_SELECTOR", "[class*='DataPoint_dataPointValue']"),
    ("CSS_SELECTOR", "[class*='dataPointValue']"),
    ("CSS_SELECTOR", "[data-testid*='price']"),
    ("CSS_SELECTOR", ".price-value"),
    ("CSS_SELECTOR", "[class*='price']"),
    ("XPATH", "//span[contains(@class, 'DataPoint')]"),
    ("XPATH", "//div[contains(@class, 'DataPoint')]//span"),
    ("XPATH", "//span[contains(text(), '$')]"),
    ("XPATH", "//div[contains(text(), 'USDC')]") ]

/-- The selector loop of main.py lines 501-538.  Each entry of `outcomes`
is what one strategy yields: `none` when its waits time out or raise
(so `price_text` is not assigned), `some raw` when the element's text was
read (the code then assigns `price_text = element.text.strip()`).  The
accumulator is the current `price_text` (`none` = Python `None`).
Returns the final `price_text` and how many strategies were tried. -/
def locateLoop : List (Option Str) → Option Str → Option Str × ℕ
  | [], acc => (acc, 0)
  | o :: rest, acc =>
    match o with
    | none =>
      let r := locateLoop rest acc
      (r.1, r.2 + 1)
    | some raw =>
      let t := pyStrip raw
      if t = [] then
        let r := locateLoop rest (some t)
        (r.1, r.2 + 1)
      else (some t, 1)

/-- The winning `price_text` after the loop, filtered by the
`if price_text:` truthiness test of main.py line 541. -/
def winningText (outcomes : List (Option Str)) : Option Str :=
  match (locateLoop outcomes none).1 with
  | some t => if t = [] then none else some t
  | none => none

/-- Number of strategies the loop examined before stopping. -/
def strategiesTried (outcomes : List (Option Str)) : ℕ :=
  (locateLoop outcomes none).2

/-- Modelled from the spec: "The first strategy yielding non-empty text
wins; remaining strategies are not tried."  Stated directly as the first
strategy whose stripped text is non-empty. -/
def specFirstHit : List (Option Str) → Option Str
  | [] => none
  | o :: rest =>
    match o with
    | some raw => if pyStrip raw = [] then specFirstHit rest else some (pyStrip raw)
    | none => specFirstHit rest

/-- Modelled from the spec: the number of strategies examined; the first
strategy yielding non-empty text ends the scan, strategies after it are
not tried. -/
def specTriedCount : List (Option Str) → ℕ
  | [] => 0
  | o :: rest =>
    match o with
    | some raw => if pyStrip raw = [] then specTriedCount rest + 1 else 1
    | none => specTriedCount rest + 1

/-- main.py lines 540-561: normalize the winning text and validate it with
`float()`; returns the cleaned price string, or `None` on empty text, empty
cleaned text, or `ValueError` from `float`. -/
def processText : Option Str → Option Str
  | some t =>
    if cleanText t = [] then none
    else
      match pyFloat? (cleanText t) with
      | some _ => some (cleanText t)
      | none => none
  | none => none

/-- Exception kinds that can be raised inside one fetch attempt and are
named by the handlers of main.py lines 597-606: `TimeoutException`,
`WebDriverException`, and any other `Exception`. -/
inductive AttemptExc
  | timeoutExc
  | webDriverExc
  | otherExc
deriving DecidableEq

/-- Observable resource actions of one attempt.  The vocabulary includes
the actions the spec's teardown mentions (OS process sweep, temp-dir
removal) so their absence from every trace is expressible. -/
inductive ResAction
  | createDriver
  | quitDriver
  | sweepProcesses
  | removeTempDir
deriving DecidableEq

/-- Environment inputs that determine one run of `fetch_price_attempt`
(main.py 448-614): whether `setup_chromedriver_and_chrome` returned usable
paths, the exception (if any) raised by the `webdriver.Chrome` constructor,
the exception (if any) raised by navigation/waiting, and the per-strategy
locator outcomes. -/
structure AttemptIn where
  setup : Bool
  ctorExc : Option AttemptExc
  navExc : Option AttemptExc
  outcomes : List (Option Str)

/-- The body of the `try` block of `fetch_price_attempt` (main.py
452-595): returns normally with an optional price string, or raises. -/
def attempt_try (a : AttemptIn) : Except AttemptExc (Option Str) :=
  if a.setup = false then Except.ok none
  else
    match a.ctorExc with
    | some e => Except.error e
    | none =>
      match a.navExc with
      | some e => Except.error e
      | none => Except.ok (processText (winningText a.outcomes))

/-- A driver was constructed during the attempt (main.py line 470 ran
without raising). -/
def attemptCreated (a : AttemptIn) : Bool := a.setup && a.ctorExc.isNone

/-- Resource actions of one attempt: the `finally` block of main.py
608-614 calls `driver.quit()` exactly when a driver was constructed; it
performs no other cleanup action. -/
def attemptTrace (a : AttemptIn) : List ResAction :=
  if attemptCreated a then [ ResAction.createDriver, ResAction.quitDriver ] else []

/-- `fetch_price_attempt` (main.py 448-614): the `try` body with the three
`except` handlers (each returns `None`) and the `finally` teardown. -/
def fetch_price_attempt (a : AttemptIn) : Option Str × List ResAction :=
  (match attempt_try a with
   | Except.ok v => v
   | Except.error AttemptExc.timeoutExc => none
   | Except.error AttemptExc.webDriverExc => none
   | Except.error AttemptExc.otherExc => none,
   attemptTrace a)

/-- The module-level `fetch_stats` dictionary (main.py line 139). -/
structure FetchStats where
  success : ℕ
  failures : ℕ
  consecutive_failures : ℕ
deriving DecidableEq

/-- Statistics update on a successful attempt (main.py 638-639). -/
def succStats (s : FetchStats) : FetchStats :=
  { s with success := s.success + 1, consecutive_failures := 0 }

/-- Statistics update on a failed attempt (main.py 643-644). -/
def failStats (s : FetchStats) : FetchStats :=
  { s with failures := s.failures + 1,
           consecutive_failures := s.consecutive_failures + 1 }

/-- Result of one `fetch_price` call: the returned value, the statistics
after the call, the concatenated resource actions, and how many attempts
(session lifecycles) were performed. -/
structure FetchOut where
  price : Option Str
  stats : FetchStats
  trace : List ResAction
  attempts : ℕ
deriving DecidableEq

/-- The attempt loop of `fetch_price` (main.py 623-664) over the listed
attempt numbers: a successful attempt records success and returns
immediately; a failed attempt records the failure and continues. -/
def fetchGo (ins : ℕ → AttemptIn) : List ℕ → FetchStats → FetchOut
  | [], stats => ⟨none, stats, [], 0⟩
  | k :: rest, stats =>
    match (fetch_price_attempt (ins k)).1 with
    | some p => ⟨some p, succStats stats, (fetch_price_attempt (ins k)).2, 1⟩
    | none =>
      let out := fetchGo ins rest (failStats stats)
      ⟨out.price, out.stats, (fetch_price_attempt (ins k)).2 ++ out.trace,
       out.attempts + 1⟩

/-- main.py line 620: `max_attempts = 3`. -/
def max_attempts : ℕ := 3

/-- `fetch_price` (main.py 616-675): runs attempts 1, 2, 3 and returns the
first success, else `None` after the final failure. -/
def fetch_price (ins : ℕ → AttemptIn) (stats : FetchStats) : FetchOut :=
  fetchGo ins [ 1, 2, 3 ] stats

/-- The `on_resumed` Discord event handler (main.py 772-776). -/
def on_resumed (stats : FetchStats) : FetchStats :=
  { stats with consecutive_failures := 0 }

/-- Exception kinds named by the handlers of the scheduler cycle
(main.py 704-726): `discord.Forbidden`, `discord.HTTPException` (which the
code further splits on whether the message reports rate limiting), and any
other `Exception`. -/
inductive PyExc
  | forbidden
  | httpExc (rateLimited : Bool)
  | otherExc
deriving DecidableEq

/-- Environment inputs of one `update_bot_status` cycle (main.py 677-739):
whether the client is ready, the value `fetch_price` returned, whether
`client.get_channel` found a voice channel, and the exceptions (if any)
raised by `change_presence` and `channel.edit`. -/
structure CycleIn where
  ready : Bool
  price : Option Str
  channelIsVoice : Bool
  presenceExc : Option PyExc
  renameExc : Option PyExc
deriving DecidableEq

/-- Observable outputs of one cycle: how many presence updates and channel
renames were attempted, and the `last_price` global afterwards. -/
structure CycleOut where
  presenceCalls : ℕ
  renameCalls : ℕ
  last_price : Option Str
deriving DecidableEq

/-- One cycle of `update_bot_status` (main.py 677-739), as a function of
the cycle inputs and the current `last_price` global.  All handlers of the
source are reflected: a presence failure is logged only; a rename failure
of any kind (`Forbidden`, `HTTPException` rate-limited or not, anything
else) leaves `last_price` unchanged; `last_price = price` runs only after
`channel.edit` returned without raising (main.py line 717). -/
def update_bot_status (inp : CycleIn) (last : Option Str) : CycleOut :=
  if inp.ready = false then ⟨0, 0, last⟩
  else
    match inp.price with
    | some p =>
      if p ≠ [] then
        if some p ≠ last then
          if inp.channelIsVoice = true then
            match inp.renameExc with
            | none => ⟨1, 1, some p⟩
            | some PyExc.forbidden => ⟨1, 1, last⟩
            | some (PyExc.httpExc _) => ⟨1, 1, last⟩
            | some PyExc.otherExc => ⟨1, 1, last⟩
          else ⟨1, 0, last⟩
        else ⟨0, 0, last⟩
      else ⟨0, 0, last⟩
    | none => ⟨0, 0, last⟩

/-- Result of the driver version-lookup network call of
`download_compatible_chromedriver` (main.py 216-256): a 200 response with
a body, a non-200 status, or a raised request exception. -/
inductive LookupResult
  | ok (body : Str)
  | badStatus
  | netExc
deriving DecidableEq

/-- The hardcoded fallback version strings of main.py 228-242:
`"138.0.6906.100"` for major 138, else `f"{major}.0.6000.0"`. -/
def fallback_driver_version (major : ℕ) : Str :=
  if major = 138 then
    [ '1', '3', '8', '.', '0', '.', '6', '9', '0', '6', '.', '1', '0', '0' ]
  else (Nat.repr major).toList ++ [ '.', '0', '.', '6', '0', '0', '0', '.', '0' ]

/-- The driver-version resolution step of `download_compatible_chromedriver`
(main.py 216-256): for majors ≥ 115 a failed lookup (bad status or network
exception) falls back to the hardcoded version; for majors ≤ 114 the old
API is used and any lookup failure makes the function return `None`
(provisioning fails). -/
def choose_driver_version (major : ℕ) (r : LookupResult) : Option Str :=
  if 115 ≤ major then
    match r with
    | LookupResult.ok body => some (pyStrip body)
    | LookupResult.badStatus => some (fallback_driver_version major)
    | LookupResult.netExc => some (fallback_driver_version major)
  else
    match r with
    | LookupResult.ok body => some (pyStrip body)
    | LookupResult.badStatus => none
    | LookupResult.netExc => none

lemma dropWhile_self (p : Char → Bool) (l : Str) :
    (l.dropWhile p).dropWhile p = l.dropWhile p := by
  induction l with
  | nil => simp
  | cons c cs ih =>
    by_cases h : p c = true
    · simp [List.dropWhile_cons, h, ih]
    · simp [List.dropWhile_cons, h]

lemma dropWhile_head_false (p : Char → Bool) :
    ∀ (l : Str) (a : Char) (rest : Str), l.dropWhile p = a :: rest → p a = false := by
  intro l
  induction l with
  | nil =>
    intro a rest h
    simp [List.dropWhile] at h
  | cons c cs ih =>
    intro a rest h
    by_cases hc : p c = true
    · rw [List.dropWhile_cons, if_pos hc] at h
      exact ih a rest h
    · rw [List.dropWhile_cons, if_neg hc] at h
      cases h
      simpa using hc

lemma dropWhile_eq_self_of_target (p : Char → Bool) {t m : Str}
    (hpre : t <+: m.dropWhile p) : t.dropWhile p = t := by
  cases t with
  | nil => rfl
  | cons a t2 =>
    obtain ⟨u, hu⟩ := hpre
    have ha : p a = false := by
      apply dropWhile_head_false p m a (t2 ++ u)
      rw [← hu]
      rfl
    rw [List.dropWhile_cons, if_neg (by simp [ha])]

lemma dropWhile_suffix_self (p : Char → Bool) (l : Str) : l.dropWhile p <:+ l := by
  induction l with
  | nil => simp
  | cons c cs ih =>
    by_cases h : p c = true
    · rw [List.dropWhile_cons, if_pos h]
      exact ih.trans (List.suffix_cons c cs)
    · rw [List.dropWhile_cons, if_neg h]

lemma pyStrip_target (l : Str) : pyStrip l <+: l.dropWhile isPySpace := by
  have h := dropWhile_suffix_self isPySpace (l.dropWhile isPySpace).reverse
  have h2 := List.reverse_prefix.mpr h
  simpa [pyStrip] using h2

lemma dropWhile_pyStrip (l : Str) : (pyStrip l).dropWhile isPySpace = pyStrip l :=
  dropWhile_eq_self_of_target isPySpace (pyStrip_target l)

lemma pyStrip_idem (l : Str) : pyStrip (pyStrip l) = pyStrip l := by
  calc pyStrip (pyStrip l)
      = (((pyStrip l).dropWhile isPySpace).reverse.dropWhile isPySpace).reverse := rfl
    _ = ((pyStrip l).reverse.dropWhile isPySpace).reverse := by rw [dropWhile_pyStrip]
    _ = ((((l.dropWhile isPySpace).reverse.dropWhile isPySpace).reverse).reverse.dropWhile
          isPySpace).reverse := rfl
    _ = (((l.dropWhile isPySpace).reverse.dropWhile isPySpace).dropWhile isPySpace).reverse := by
          rw [List.reverse_reverse]
    _ = ((l.dropWhile isPySpace).reverse.dropWhile isPySpace).reverse := by rw [dropWhile_self]
    _ = pyStrip l := rfl

lemma pyFloat?_pyStrip (s : Str) : pyFloat? (pyStrip s) = pyFloat? s := by
  unfold pyFloat?
  rw [pyStrip_idem]

lemma mem_pyStrip {x : Char} {l : Str} (h : x ∈ pyStrip l) : x ∈ l := by
  unfold pyStrip at h
  rw [List.mem_reverse] at h
  have h2 := (dropWhile_suffix_self isPySpace _).subset h
  rw [List.mem_reverse] at h2
  exact (dropWhile_suffix_self isPySpace l).subset h2

lemma mem_pyReplaceGo {x : Char} (pat : Str) :
    ∀ (fuel : ℕ) (s : Str), x ∈ pyReplaceGo pat [] fuel s → x ∈ s := by
  intro fuel
  induction fuel with
  | zero =>
    intro s h
    simpa [pyReplaceGo] using h
  | succ n ih =>
    intro s h
    cases s with
    | nil =>
      rw [pyReplaceGo] at h
      exact h
    | cons c cs =>
      rw [pyReplaceGo] at h
      by_cases hc : pat.isPrefixOf (c :: cs) = true ∧ pat ≠ []
      · rw [if_pos hc, List.nil_append] at h
        exact List.mem_of_mem_drop (ih _ h)
      · rw [if_neg hc] at h
        rcases List.mem_cons.mp h with h1 | h2
        · exact h1 ▸ List.mem_cons_self c cs
        · exact List.mem_cons_of_mem c (ih _ h2)

lemma not_mem_pyReplaceGo_single (c : Char) :
    ∀ (fuel : ℕ) (s : Str), s.length ≤ fuel → c ∉ pyReplaceGo [ c ] [] fuel s := by
  intro fuel
  induction fuel with
  | zero =>
    intro s hlen
    have hs : s = [] := List.length_eq_zero.mp (Nat.le_zero.mp hlen)
    subst hs
    simp [pyReplaceGo]
  | succ n ih =>
    intro s hlen
    cases s with
    | nil => simp [pyReplaceGo]
    | cons a cs =>
      rw [pyReplaceGo]
      by_cases hc : ([ c ] : Str).isPrefixOf (a :: cs) = true ∧ ([ c ] : Str) ≠ []
      · rw [if_pos hc, List.nil_append]
        have hdrop : (a :: cs).drop ([ c ] : Str).length = cs := by simp
        rw [hdrop]
        exact ih cs (Nat.le_of_succ_le_succ (by simpa using hlen))
      · rw [if_neg hc]
        have hne : ¬ c = a := by
          intro he
          exact hc ⟨by simp [List.isPrefixOf, he], by simp⟩
        intro hmem
        rcases List.mem_cons.mp hmem with h1 | h2
        · exact hne h1
        · exact ih cs (Nat.le_of_succ_le_succ (by simpa using hlen)) h2

lemma pyReplace_single_not_mem (c : Char) (s : Str) : c ∉ pyReplace [ c ] [] s :=
  not_mem_pyReplaceGo_single c s.length s le_rfl

lemma mem_pyReplace {x : Char} {pat s : Str} (h : x ∈ pyReplace pat [] s) : x ∈ s :=
  mem_pyReplaceGo pat s.length s h

lemma cleanText_no_dollar (s : Str) : '$' ∉ cleanText s := by
  intro h
  exact pyReplace_single_not_mem ('$') _ (mem_pyReplace (mem_pyStrip h))

lemma cleanText_no_comma (s : Str) : ',' ∉ cleanText s := by
  intro h
  exact pyReplace_single_not_mem (',') _ (mem_pyStrip h)

lemma cleanText_stripped (s : Str) : pyStrip (cleanText s) = cleanText s :=
  pyStrip_idem _

/-- C1: for every raw text, the normalization of main.py line 546 removes
the tokens `USDC`, `$`, `,` and then the surrounding whitespace, and the
result parses under Python `float()` to exactly the same value as the raw
text with those tokens removed; in particular `"$1,234.56 USDC"`
normalizes to `"1234.56"`. -/
theorem spec_C1_normalization (s : Str) :
    cleanText s = pyStrip (removeTokens s) ∧
    pyFloat? (cleanText s) = pyFloat? (removeTokens s) ∧
    cleanText [ '$', '1', ',', '2', '3', '4', '.', '5', '6', ' ', 'U', 'S', 'D', 'C' ]
      = [ '1', '2', '3', '4', '.', '5', '6' ] :=
  ⟨rfl, pyFloat?_pyStrip (removeTokens s), by decide⟩

lemma locateLoop_spec (outcomes : List (Option Str)) :
    ∀ acc : Option Str, acc = none ∨ acc = some [] →
      ((match (locateLoop outcomes acc).1 with
        | some t => if t = [] then none else some t
        | none => none) = specFirstHit outcomes ∧
       (locateLoop outcomes acc).2 = specTriedCount outcomes) := by
  induction outcomes with
  | nil =>
    intro acc hacc
    rcases hacc with h | h <;> subst h <;> exact ⟨rfl, rfl⟩
  | cons o rest ih =>
    intro acc hacc
    cases o with
    | none =>
      have h := ih acc hacc
      refine ⟨?_, ?_⟩
      · simpa [locateLoop, specFirstHit] using h.1
      · simp [locateLoop, specTriedCount, h.2]
    | some raw =>
      by_cases ht : pyStrip raw = []
      · have h := ih (some []) (Or.inr rfl)
        refine ⟨?_, ?_⟩
        · simpa [locateLoop, specFirstHit, ht] using h.1
        · simp [locateLoop, specTriedCount, ht, h.2]
      · refine ⟨?_, ?_⟩
        · simp [locateLoop, specFirstHit, ht]
        · simp [locateLoop, specTriedCount, ht]

lemma winningText_eq_specFirstHit (outcomes : List (Option Str)) :
    winningText outcomes = specFirstHit outcomes := by
  unfold winningText
  exact (locateLoop_spec outcomes none (Or.inl rfl)).1

lemma strategiesTried_eq_specTriedCount (outcomes : List (Option Str)) :
    strategiesTried outcomes = specTriedCount outcomes :=
  (locateLoop_spec outcomes none (Or.inl rfl)).2

/-- C7: the value locator tries the strategies in list order; the first
strategy yielding non-empty (stripped) text wins, strategies after it are
not tried (the number examined stops at the winner), and when no strategy
yields non-empty text the attempt returns `None`. -/
theorem spec_C7_precedence (outcomes : List (Option Str)) :
    winningText outcomes = specFirstHit outcomes ∧
    strategiesTried outcomes = specTriedCount outcomes ∧
    (specFirstHit outcomes = none →
      (fetch_price_attempt ⟨true, none, none, outcomes⟩).1 = none) := by
  refine ⟨winningText_eq_specFirstHit outcomes,
    strategiesTried_eq_specTriedCount outcomes, ?_⟩
  intro hnone
  have hw : winningText outcomes = none :=
    (winningText_eq_specFirstHit outcomes).trans hnone
  simp [fetch_price_attempt, attempt_try, hw, processText]

/-- Witness for C7: on a page where the first strategy times out and the
second yields only empty text, the attempt fails. -/
theorem spec_C7_precedence_w :
    (fetch_price_attempt ⟨true, none, none, [ none, some ([] : Str) ]⟩).1 = none :=
  (spec_C7_precedence [ none, some ([] : Str) ]).2.2 (by decide)

lemma processText_some {o : Option Str} {p : Str} (h : processText o = some p) :
    ∃ t, o = some t ∧ p = cleanText t ∧ (pyFloat? p).isSome = true := by
  cases o with
  | none => exact absurd h (by simp [processText])
  | some t =>
    simp only [processText] at h
    by_cases hc : cleanText t = []
    · rw [if_pos hc] at h
      exact absurd h (by simp)
    · rw [if_neg hc] at h
      cases hf : pyFloat? (cleanText t) with
      | none =>
        rw [hf] at h
        exact absurd h (by simp)
      | some v =>
        rw [hf] at h
        have hp : p = cleanText t := (Option.some_inj.mp h).symm
        subst hp
        exact ⟨t, rfl, rfl, by rw [hf]; rfl⟩

lemma fetch_price_attempt_some {a : AttemptIn} {p : Str}
    (h : (fetch_price_attempt a).1 = some p) :
    ∃ t, winningText a.outcomes = some t ∧ p = cleanText t ∧
      (pyFloat? p).isSome = true := by
  simp only [fetch_price_attempt] at h
  cases he : attempt_try a with
  | error e =>
    rw [he] at h
    cases e <;> simp at h
  | ok v =>
    rw [he] at h
    unfold attempt_try at he
    by_cases hs : a.setup = false
    · rw [if_pos hs] at he
      cases he
      exact absurd h (by simp)
    · rw [if_neg hs] at he
      cases hctor : a.ctorExc with
      | some e =>
        rw [hctor] at he
        simp at he
      | none =>
        rw [hctor] at he
        cases hnav : a.navExc with
        | some e =>
          rw [hnav] at he
          simp at he
        | none =>
          rw [hnav] at he
          simp only [] at he
          cases he
          obtain ⟨t, ht, hp, hf⟩ := processText_some h
          exact ⟨t, ht, hp, hf⟩

/-- C4 (amended): every price string returned by `fetch_price_attempt`
parses under Python `float()` and carries no dollar sign, no comma, and no
surrounding whitespace.  (The original claim's "finite non-negative" is
refuted by `spec_C4_price_invariant_cex`.) -/
theorem spec_C4_price_invariant (a : AttemptIn) (p : Str)
    (h : (fetch_price_attempt a).1 = some p) :
    (pyFloat? p).isSome = true ∧ '$' ∉ p ∧ ',' ∉ p ∧ pyStrip p = p := by
  obtain ⟨t, ht, hp, hf⟩ := fetch_price_attempt_some h
  subst hp
  exact ⟨hf, cleanText_no_dollar t, cleanText_no_comma t, cleanText_stripped t⟩

/-- Witness for C4: a successful attempt on raw text `"0.1"`. -/
theorem spec_C4_price_invariant_w :
    (pyFloat? [ '0', '.', '1' ]).isSome = true ∧ '$' ∉ [ '0', '.', '1' ] ∧
    ',' ∉ [ '0', '.', '1' ] ∧ pyStrip [ '0', '.', '1' ] = [ '0', '.', '1' ] :=
  spec_C4_price_invariant ⟨true, none, none, [ some [ '0', '.', '1' ] ]⟩
    [ '0', '.', '1' ] (by decide)

/-- C4 counterexample: when the winning strategy renders the text `"-1"`,
the attempt returns `"-1"`, which `float()` accepts as the negative value
-1 — so the returned string does not always parse as a finite
*non-negative* decimal, contrary to the claim. -/
theorem spec_C4_price_invariant_cex :
    (fetch_price_attempt ⟨true, none, none, [ some [ '-', '1' ] ]⟩).1
      = some [ '-', '1' ] ∧
    pyFloat? [ '-', '1' ] = some (PyFloat.finite (-1) 0) ∧ (-1 : ℤ) < 0 := by
  decide

lemma countA_attemptTrace (a : AttemptIn) (x : ResAction) :
    ((fetch_price_attempt a).2).count x ≤ 1 := by
  simp only [fetch_price_attempt]
  unfold attemptTrace
  by_cases h : attemptCreated a = true
  · rw [if_pos h]
    cases x <;> decide
  · rw [if_neg h]
    simp

lemma attempt_on_dead_page :
    fetch_price_attempt ⟨true, none, none, List.replicate 10 none⟩
      = (none, [ ResAction.createDriver, ResAction.quitDriver ]) := by
  decide

lemma fetch_price_cases (ins : ℕ → AttemptIn) (stats : FetchStats) :
    (∃ p, (fetch_price_attempt (ins 1)).1 = some p ∧
      fetch_price ins stats =
        ⟨some p, succStats stats, (fetch_price_attempt (ins 1)).2, 1⟩) ∨
    ((fetch_price_attempt (ins 1)).1 = none ∧
      ∃ p, (fetch_price_attempt (ins 2)).1 = some p ∧
      fetch_price ins stats =
        ⟨some p, succStats (failStats stats),
          (fetch_price_attempt (ins 1)).2 ++ (fetch_price_attempt (ins 2)).2, 2⟩) ∨
    ((fetch_price_attempt (ins 1)).1 = none ∧
      (fetch_price_attempt (ins 2)).1 = none ∧
      ∃ p, (fetch_price_attempt (ins 3)).1 = some p ∧
      fetch_price ins stats =
        ⟨some p, succStats (failStats (failStats stats)),
          (fetch_price_attempt (ins 1)).2 ++
            ((fetch_price_attempt (ins 2)).2 ++ (fetch_price_attempt (ins 3)).2), 3⟩) ∨
    ((fetch_price_attempt (ins 1)).1 = none ∧
      (fetch_price_attempt (ins 2)).1 = none ∧
      (fetch_price_attempt (ins 3)).1 = none ∧
      fetch_price ins stats =
        ⟨none, failStats (failStats (failStats stats)),
          (fetch_price_attempt (ins 1)).2 ++
            ((fetch_price_attempt (ins 2)).2 ++ (fetch_price_attempt (ins 3)).2), 3⟩) := by
  cases h1 : (fetch_price_attempt (ins 1)).1 with
  | some p => exact Or.inl ⟨p, rfl, by simp [fetch_price, fetchGo, h1]⟩
  | none =>
    cases h2 : (fetch_price_attempt (ins 2)).1 with
    | some p =>
      exact Or.inr (Or.inl ⟨rfl, p, rfl, by simp [fetch_price, fetchGo, h1, h2]⟩)
    | none =>
      cases h3 : (fetch_price_attempt (ins 3)).1 with
      | some p =>
        exact Or.inr (Or.inr (Or.inl
          ⟨rfl, rfl, p, rfl, by simp [fetch_price, fetchGo, h1, h2, h3]⟩))
      | none =>
        exact Or.inr (Or.inr (Or.inr
          ⟨rfl, rfl, rfl, by simp [fetch_price, fetchGo, h1, h2, h3]⟩))

/-- C2: the retry controller performs at most 3 attempts, returns `None`
only after exactly 3 failed attempts (with `failures` incremented by 3),
and when every locator strategy times out on all attempts it performs
exactly 3 session lifecycles (3 driver creations, 3 teardowns) and returns
`None`. -/
theorem spec_C2_retry_bounds (ins : ℕ → AttemptIn) (stats : FetchStats) :
    (fetch_price ins stats).attempts ≤ 3 ∧
    (fetch_price ins stats).trace.count ResAction.createDriver ≤ 3 ∧
    ((fetch_price ins stats).price = none →
      (fetch_price ins stats).attempts = 3 ∧
      (fetch_price ins stats).stats.failures = stats.failures + 3) ∧
    ((∀ k, ins k = ⟨true, none, none, List.replicate 10 none⟩) →
      (fetch_price ins stats).price = none ∧
      (fetch_price ins stats).attempts = 3 ∧
      (fetch_price ins stats).trace.count ResAction.createDriver = 3 ∧
      (fetch_price ins stats).trace.count ResAction.quitDriver = 3 ∧
      (fetch_price ins stats).stats.failures = stats.failures + 3) := by
  have hb1 := countA_attemptTrace (ins 1) ResAction.createDriver
  have hb2 := countA_attemptTrace (ins 2) ResAction.createDriver
  have hb3 := countA_attemptTrace (ins 3) ResAction.createDriver
  rcases fetch_price_cases ins stats with
    ⟨p, h1, he⟩ | ⟨h1, p, h2, he⟩ | ⟨h1, h2, p, h3, he⟩ | ⟨h1, h2, h3, he⟩
  · refine ⟨by simp [he], ?_, ?_, ?_⟩
    · show (fetch_price ins stats).trace.count ResAction.createDriver ≤ 3
      rw [he]
      show ((fetch_price_attempt (ins 1)).2).count ResAction.createDriver ≤ 3
      omega
    · intro hn
      rw [he] at hn
      exact absurd hn (by simp)
    · intro hins
      rw [hins 1, attempt_on_dead_page] at h1
      exact absurd h1 (by simp)
  · refine ⟨by simp [he], ?_, ?_, ?_⟩
    · rw [he]
      show ((fetch_price_attempt (ins 1)).2 ++
        (fetch_price_attempt (ins 2)).2).count ResAction.createDriver ≤ 3
      rw [List.count_append]
      omega
    · intro hn
      rw [he] at hn
      exact absurd hn (by simp)
    · intro hins
      rw [hins 2, attempt_on_dead_page] at h2
      exact absurd h2 (by simp)
  · refine ⟨by simp [he], ?_, ?_, ?_⟩
    · rw [he]
      show ((fetch_price_attempt (ins 1)).2 ++
        ((fetch_price_attempt (ins 2)).2 ++
          (fetch_price_attempt (ins 3)).2)).count ResAction.createDriver ≤ 3
      rw [List.count_append, List.count_append]
      omega
    · intro hn
      rw [he] at hn
      exact absurd hn (by simp)
    · intro hins
      rw [hins 3, attempt_on_dead_page] at h3
      exact absurd h3 (by simp)
  · refine ⟨by simp [he], ?_, ?_, ?_⟩
    · rw [he]
      show ((fetch_price_attempt (ins 1)).2 ++
        ((fetch_price_attempt (ins 2)).2 ++
          (fetch_price_attempt (ins 3)).2)).count ResAction.createDriver ≤ 3
      rw [List.count_append, List.count_append]
      omega
    · intro _
      refine ⟨by rw [he], ?_⟩
      rw [he]
      show (failStats (failStats (failStats stats))).failures = stats.failures + 3
      simp [failStats]
    · intro hins
      refine ⟨by rw [he], by rw [he], ?_, ?_, ?_⟩
      · rw [he]
        show ((fetch_price_attempt (ins 1)).2 ++
          ((fetch_price_attempt (ins 2)).2 ++
            (fetch_price_attempt (ins 3)).2)).count ResAction.createDriver = 3
        rw [hins 1, hins 2, hins 3, attempt_on_dead_page]
        decide
      · rw [he]
        show ((fetch_price_attempt (ins 1)).2 ++
          ((fetch_price_attempt (ins 2)).2 ++
            (fetch_price_attempt (ins 3)).2)).count ResAction.quitDriver = 3
        rw [hins 1, hins 2, hins 3, attempt_on_dead_page]
        decide
      · rw [he]
        show (failStats (failStats (failStats stats))).failures = stats.failures + 3
        simp [failStats]

/-- Witness for C2: with every locator strategy timing out on every
attempt, starting from zeroed statistics. -/
theorem spec_C2_retry_bounds_w :
    (fetch_price (fun _ => ⟨true, none, none, List.replicate 10 none⟩)
      ⟨0, 0, 0⟩).price = none ∧
    (fetch_price (fun _ => ⟨true, none, none, List.replicate 10 none⟩)
      ⟨0, 0, 0⟩).attempts = 3 ∧
    (fetch_price (fun _ => ⟨true, none, none, List.replicate 10 none⟩)
      ⟨0, 0, 0⟩).trace.count ResAction.createDriver = 3 ∧
    (fetch_price (fun _ => ⟨true, none, none, List.replicate 10 none⟩)
      ⟨0, 0, 0⟩).trace.count ResAction.quitDriver = 3 ∧
    (fetch_price (fun _ => ⟨true, none, none, List.replicate 10 none⟩)
      ⟨0, 0, 0⟩).stats.failures = (⟨0, 0, 0⟩ : FetchStats).failures + 3 :=
  (spec_C2_retry_bounds (fun _ => ⟨true, none, none, List.replicate 10 none⟩)
    ⟨0, 0, 0⟩).2.2.2 (fun _ => rfl)

/-- C9: on a successful attempt the retry controller increments
`success` by 1, resets `consecutive_failures` to exactly 0 whatever its
prior value, returns that attempt's price immediately (the succeeding
attempt is the last one performed, every earlier attempt failed, and
`failures` grew only by the number of earlier failed attempts); and the
external reconnect handler `on_resumed` also resets
`consecutive_failures` to 0. -/
theorem spec_C9_success_reset :
    (∀ (ins : ℕ → AttemptIn) (stats : FetchStats) (p : Str),
      (fetch_price ins stats).price = some p →
        (fetch_price ins stats).stats.success = stats.success + 1 ∧
        (fetch_price ins stats).stats.consecutive_failures = 0 ∧
        1 ≤ (fetch_price ins stats).attempts ∧
        (fetch_price ins stats).attempts ≤ 3 ∧
        (fetch_price_attempt (ins (fetch_price ins stats).attempts)).1 = some p ∧
        (∀ j, 1 ≤ j → j < (fetch_price ins stats).attempts →
          (fetch_price_attempt (ins j)).1 = none) ∧
        (fetch_price ins stats).stats.failures
          = stats.failures + ((fetch_price ins stats).attempts - 1)) ∧
    (∀ stats : FetchStats, (on_resumed stats).consecutive_failures = 0) := by
  constructor
  · intro ins stats p hp
    rcases fetch_price_cases ins stats with
      ⟨q, h1, he⟩ | ⟨h1, q, h2, he⟩ | ⟨h1, h2, q, h3, he⟩ | ⟨h1, h2, h3, he⟩
    · rw [he] at hp ⊢
      have hq : q = p := by simpa using hp
      subst hq
      refine ⟨by simp [succStats], by simp [succStats], by norm_num, by norm_num,
        h1, ?_, by simp [succStats]⟩
      intro j hj1 hj2
      simp at hj2
      omega
    · rw [he] at hp ⊢
      have hq : q = p := by simpa using hp
      subst hq
      refine ⟨by simp [succStats, failStats], by simp [succStats], by norm_num,
        by norm_num, h2, ?_, by simp [succStats, failStats]⟩
      intro j hj1 hj2
      simp at hj2
      have hj : j = 1 := by omega
      rw [hj]
      exact h1
    · rw [he] at hp ⊢
      have hq : q = p := by simpa using hp
      subst hq
      refine ⟨by simp [succStats, failStats], by simp [succStats], by norm_num,
        by norm_num, h3, ?_, by simp [succStats, failStats]⟩
      intro j hj1 hj2
      simp at hj2
      have hj : j = 1 ∨ j = 2 := by omega
      rcases hj with hj | hj <;> rw [hj]
      · exact h1
      · exact h2
    · rw [he] at hp
      exact absurd hp (by simp)
  · intro stats
    rfl

/-- Witness for C9: the first attempt succeeds with text `"1"`, starting
from a streak of 5 consecutive failures. -/
theorem spec_C9_success_reset_w :
    (fetch_price (fun _ => ⟨true, none, none, [ some [ '1' ] ]⟩)
      ⟨0, 0, 5⟩).stats.success = (⟨0, 0, 5⟩ : FetchStats).success + 1 ∧
    (fetch_price (fun _ => ⟨true, none, none, [ some [ '1' ] ]⟩)
      ⟨0, 0, 5⟩).stats.consecutive_failures = 0 :=
  ⟨(spec_C9_success_reset.1 (fun _ => ⟨true, none, none, [ some [ '1' ] ]⟩)
      ⟨0, 0, 5⟩ [ '1' ] (by decide)).1,
   (spec_C9_success_reset.1 (fun _ => ⟨true, none, none, [ some [ '1' ] ]⟩)
      ⟨0, 0, 5⟩ [ '1' ] (by decide)).2.1⟩

/-- C6: every exception raised inside the body of a fetch attempt is
caught by the handlers of main.py 597-606 and downgraded to a `None`
result (the teardown still running), so `fetch_price` is total: it
returns an optional price string, and its statistics counters account for
exactly one success-or-failure bump per attempt performed — the only
observable side effect. -/
theorem spec_C6_error_containment :
    (∀ (a : AttemptIn) (e : AttemptExc), attempt_try a = Except.error e →
      fetch_price_attempt a = (none, attemptTrace a)) ∧
    (∀ (ins : ℕ → AttemptIn) (stats : FetchStats),
      (fetch_price ins stats).stats.success + (fetch_price ins stats).stats.failures
        = stats.success + stats.failures + (fetch_price ins stats).attempts) := by
  constructor
  · intro a e h
    unfold fetch_price_attempt
    rw [h]
    cases e <;> rfl
  · intro ins stats
    rcases fetch_price_cases ins stats with
      ⟨p, h1, he⟩ | ⟨h1, p, h2, he⟩ | ⟨h1, h2, p, h3, he⟩ | ⟨h1, h2, h3, he⟩ <;>
      rw [he] <;> simp [succStats, failStats] <;> omega

/-- Witness for C6: a `WebDriverException` from the driver constructor is
swallowed and the attempt reports failure. -/
theorem spec_C6_error_containment_w :
    fetch_price_attempt ⟨true, some AttemptExc.webDriverExc, none, []⟩
      = (none, attemptTrace ⟨true, some AttemptExc.webDriverExc, none, []⟩) :=
  spec_C6_error_containment.1 ⟨true, some AttemptExc.webDriverExc, none, []⟩
    AttemptExc.webDriverExc rfl

/-- C8 (amended): the browser session handle is released on every exit
path — whenever a driver was constructed, the teardown runs `driver.quit`
exactly once before the attempt returns, whether the attempt completed,
failed to extract, or timed out; but the teardown performs no OS process
sweep and no temp-directory removal (the original claim's stronger
teardown is refuted by `spec_C8_teardown_cex`). -/
theorem spec_C8_teardown (a : AttemptIn) :
    (attemptCreated a = true →
      (fetch_price_attempt a).2 = [ ResAction.createDriver, ResAction.quitDriver ]) ∧
    ResAction.sweepProcesses ∉ (fetch_price_attempt a).2 ∧
    ResAction.removeTempDir ∉ (fetch_price_attempt a).2 := by
  refine ⟨?_, ?_, ?_⟩ <;> simp only [fetch_price_attempt] <;> unfold attemptTrace
  · intro h
    rw [if_pos h]
  · by_cases h : attemptCreated a = true
    · rw [if_pos h]
      decide
    · rw [if_neg h]
      decide
  · by_cases h : attemptCreated a = true
    · rw [if_pos h]
      decide
    · rw [if_neg h]
      decide

/-- Witness for C8: a timed-out navigation still reaches the teardown and
quits the driver. -/
theorem spec_C8_teardown_w :
    (fetch_price_attempt ⟨true, none, some AttemptExc.timeoutExc, []⟩).2
      = [ ResAction.createDriver, ResAction.quitDriver ] :=
  (spec_C8_teardown ⟨true, none, some AttemptExc.timeoutExc, []⟩).1 (by decide)

/-- C8 counterexample: on a normally completing attempt with a live
driver, the teardown performs neither an OS process sweep nor a
temp-directory removal — contrary to the claim that the teardown
"forcibly sweeps any lingering OS processes … and removes temporary
directories". -/
theorem spec_C8_teardown_cex :
    (fetch_price_attempt ⟨true, none, none, [ some [ '1' ] ]⟩).1 = some [ '1' ] ∧
    attemptCreated ⟨true, none, none, [ some [ '1' ] ]⟩ = true ∧
    ResAction.sweepProcesses ∉ (fetch_price_attempt ⟨true, none, none, [ some [ '1' ] ]⟩).2 ∧
    ResAction.removeTempDir ∉ (fetch_price_attempt ⟨true, none, none, [ some [ '1' ] ]⟩).2 := by
  decide

/-- C3 (amended): in a cycle with a fetched price, the channel rename is
attempted iff the value differs (as a string) from `last_price` *and* the
configured channel resolves to a voice channel (the extra channel
condition refutes the claim's plain iff, see `spec_C3_publish_gate_cex`);
no publish call of either kind is made when the fetch failed or the value
is unchanged; and two consecutive cycles fetching the same value, with a
resolving channel and a succeeding rename, perform exactly one rename in
total. -/
theorem spec_C3_publish_gate :
    (∀ (inp : CycleIn) (last : Option Str) (p : Str),
      inp.ready = true → inp.price = some p → p ≠ [] →
        ((update_bot_status inp last).renameCalls = 1 ↔
          (some p ≠ last ∧ inp.channelIsVoice = true))) ∧
    (∀ (inp : CycleIn) (last : Option Str),
      inp.ready = true → inp.price = none →
        update_bot_status inp last = ⟨0, 0, last⟩) ∧
    (∀ (inp : CycleIn) (last : Option Str) (p : Str),
      inp.ready = true → inp.price = some p → some p = last →
        update_bot_status inp last = ⟨0, 0, last⟩) ∧
    (∀ (v : Str) (last0 : Option Str), v ≠ [] → some v ≠ last0 →
      (update_bot_status ⟨true, some v, true, none, none⟩ last0).renameCalls +
        (update_bot_status ⟨true, some v, true, none, none⟩
          (update_bot_status ⟨true, some v, true, none, none⟩ last0).last_price).renameCalls
        = 1) := by
  refine ⟨?_, ?_, ?_, ?_⟩
  · intro inp last p hr hp hne
    by_cases hd : some p ≠ last
    · by_cases hch : inp.channelIsVoice = true
      · cases hx : inp.renameExc with
        | none => simp [update_bot_status, hr, hp, hne, hd, hch, hx]
        | some e => cases e <;> simp [update_bot_status, hr, hp, hne, hd, hch, hx]
      · simp [update_bot_status, hr, hp, hne, hd, hch]
    · simp [update_bot_status, hr, hp, hne, hd]
  · intro inp last hr hp
    simp [update_bot_status, hr, hp]
  · intro inp last p hr hp heq
    subst heq
    by_cases hne : p ≠ []
    · simp [update_bot_status, hr, hp, hne]
    · simp [update_bot_status, hr, hp, hne]
  · intro v last0 hv hne
    have h1 : update_bot_status ⟨true, some v, true, none, none⟩ last0
        = ⟨1, 1, some v⟩ := by
      simp [update_bot_status, hv, hne]
    rw [h1]
    have h2 : update_bot_status ⟨true, some v, true, none, none⟩ (some v)
        = ⟨0, 0, some v⟩ := by
      simp [update_bot_status, hv]
    rw [show (⟨1, 1, some v⟩ : CycleOut).last_price = some v from rfl, h2]
    rfl

/-- Witness for C3: a fresh value `"2"` fetched in two consecutive cycles
produces exactly one rename in total. -/
theorem spec_C3_publish_gate_w :
    (update_bot_status ⟨true, some [ '2' ], true, none, none⟩ none).renameCalls +
      (update_bot_status ⟨true, some [ '2' ], true, none, none⟩
        (update_bot_status ⟨true, some [ '2' ], true, none, none⟩ none).last_price).renameCalls
      = 1 :=
  spec_C3_publish_gate.2.2.2 [ '2' ] none (by decide) (by decide)

/-- C3 counterexample: the client is ready, the fetched value `"1"`
differs from `last_price`, yet no rename is attempted because the channel
lookup does not yield a voice channel — refuting "the rename is attempted
if and only if the fetched value differs". -/
theorem spec_C3_publish_gate_cex :
    some [ '1' ] ≠ (none : Option Str) ∧
    (update_bot_status ⟨true, some [ '1' ], false, none, none⟩ none).renameCalls = 0 := by
  decide

/-- C5: `last_price` changes only when the channel resolved and the
rename call raised nothing (so never on a presence update alone and never
on a failed rename), and any `HTTPException` from the rename — in
particular a rate-limited one — leaves `last_price` unchanged; the cycle
handles it without propagating. -/
theorem spec_C5_last_price :
    (∀ (inp : CycleIn) (last : Option Str),
      (update_bot_status inp last).last_price ≠ last →
        inp.renameExc = none ∧ inp.channelIsVoice = true ∧
        (update_bot_status inp last).renameCalls = 1) ∧
    (∀ (inp : CycleIn) (last : Option Str) (b : Bool),
      inp.renameExc = some (PyExc.httpExc b) →
        (update_bot_status inp last).last_price = last) := by
  constructor
  · intro inp last h
    by_cases hr : inp.ready = false
    · simp [update_bot_status, hr] at h
    · cases hp : inp.price with
      | none => simp [update_bot_status, hr, hp] at h
      | some p =>
        by_cases hne : p ≠ []
        · by_cases hd : some p ≠ last
          · by_cases hch : inp.channelIsVoice = true
            · cases hx : inp.renameExc with
              | none =>
                refine ⟨rfl, hch, ?_⟩
                simp [update_bot_status, hr, hp, hne, hd, hch, hx]
              | some e =>
                cases e <;> simp [update_bot_status, hr, hp, hne, hd, hch, hx] at h
            · simp [update_bot_status, hr, hp, hne, hd, hch] at h
          · simp [update_bot_status, hr, hp, hne, hd] at h
        · simp [update_bot_status, hr, hp, hne] at h
  · intro inp last b hx
    by_cases hr : inp.ready = false
    · simp [update_bot_status, hr]
    · cases hp : inp.price with
      | none => simp [update_bot_status, hr, hp]
      | some p =>
        by_cases hne : p ≠ []
        · by_cases hd : some p ≠ last
          · by_cases hch : inp.channelIsVoice = true
            · simp [update_bot_status, hr, hp, hne, hd, hch, hx]
            · simp [update_bot_status, hr, hp, hne, hd, hch]
          · simp [update_bot_status, hr, hp, hne, hd]
        · simp [update_bot_status, hr, hp, hne]

/-- Witness for C5: a rate-limited rename leaves `last_price` unset. -/
theorem spec_C5_last_price_w :
    (update_bot_status ⟨true, some [ '3' ], true, none,
      some (PyExc.httpExc true)⟩ none).last_price = none :=
  spec_C5_last_price.2 ⟨true, some [ '3' ], true, none, some (PyExc.httpExc true)⟩
    none true rfl

/-- C10 (amended): on a failed driver version lookup (non-200 status or a
request exception) the provisioner falls back to the hardcoded version
string only for browser majors ≥ 115 (`"138.0.6906.100"` for major 138,
`f"{major}.0.6000.0"` otherwise); for majors below 115 a failed lookup
makes provisioning fail with `None` (the original all-majors claim is
refuted by `spec_C10_driver_fallback_cex`). -/
theorem spec_C10_driver_fallback (major : ℕ) (r : LookupResult)
    (h : r = LookupResult.badStatus ∨ r = LookupResult.netExc) :
    (115 ≤ major → choose_driver_version major r
      = some (fallback_driver_version major)) ∧
    (major < 115 → choose_driver_version major r = none) := by
  constructor
  · intro hm
    rcases h with rfl | rfl <;> simp [choose_driver_version, hm]
  · intro hm
    have hnot : ¬ 115 ≤ major := by omega
    rcases h with rfl | rfl <;> simp [choose_driver_version, hnot]

/-- Witness for C10: major 138 with a network exception falls back to the
hardcoded version. -/
theorem spec_C10_driver_fallback_w :
    choose_driver_version 138 LookupResult.netExc
      = some (fallback_driver_version 138) :=
  (spec_C10_driver_fallback 138 LookupResult.netExc (Or.inr rfl)).1 (by norm_num)

/-- C10 counterexample: for browser major 114 a failed lookup makes the
provisioning step fail (`None`) instead of falling back — refuting the
claim for "every browser major version". -/
theorem spec_C10_driver_fallback_cex :
    choose_driver_version 114 LookupResult.netExc = none := by
  decide
